import Mathlib

/-!
Shallow embedding of the `id-match` rule of eslint-plugin-canonical
(src/rules/idMatch.ts): the per-node `Identifier` entry point, its helpers
(`isInvalid`, `shouldReport`, `report`, `isInsideObjectPattern`), and a small
semantics for JavaScript regular-expression searching (`RMatch` / `jsTest`)
covering the constructs used by the rule's default pattern.

Syntax trees are modelled as arenas: a list of nodes addressed by index, each
node carrying its kind tag (the ESTree `type` string), its optional fields and
an optional parent index.  Node identity (`parent.key === node` in the source)
is index equality.  Field absence (`'key' in parent`) is `Option.isSome`.
-/

namespace IdMatch

/-- A syntax-tree node: the ESTree `type` tag plus the fields the rule reads.
`none` models an absent field.  Child and parent relations are arena indices.
`localIdx` models the `local` field of import specifiers. -/
structure Node where
  type : String
  name : Option String := none
  range : Nat × Nat := (0, 0)
  parent : Option Nat := none
  object : Option Nat := none
  property : Option Nat := none
  key : Option Nat := none
  value : Option Nat := none
  left : Option Nat := none
  right : Option Nat := none
  localIdx : Option Nat := none
  shorthand : Option Bool := none
  deriving Repr, DecidableEq

/-- Look a node up by (optional) arena index. -/
def nodeAt (tree : List Node) (i? : Option Nat) : Option Node :=
  i?.bind (fun i => tree[i]?)

/-- The five boolean options of the rule (source: `defaultOptions` and the
`Boolean(options?...)` reads in `create`), all defaulting to `false`. -/
structure Config where
  classFields : Bool := false
  ignoreDestructuring : Bool := false
  ignoreNamedImports : Bool := false
  onlyDeclarations : Bool := false
  properties : Bool := false
  deriving Repr, DecidableEq

/-- One emitted diagnostic: the `messageId`, the `data` fields (`name`,
`pattern`) and the reported node, as passed to `context.report`. -/
structure Diagnostic where
  messageId : String
  name : Option String
  pattern : String
  node : Node
  deriving Repr, DecidableEq

/-- The rule's per-traversal mutable state: the `reportedNodes` set of
stringified ranges, plus the sink of diagnostics reported so far. -/
structure RuleState where
  reportedNodes : List String := []
  diagnostics : List Diagnostic := []
  deriving Repr, DecidableEq

/-- Fresh state at the start of one traversal (`new Set()`, empty sink). -/
def initialState : RuleState := {}

/-- JavaScript `[a, b].toString()` as used to key the reported-node set. -/
def rangeToString (r : Nat × Nat) : String :=
  toString r.1 ++ "," ++ toString r.2

/-- Source: `ALLOWED_PARENT_TYPES = new Set(['CallExpression', 'NewExpression'])`. -/
def ALLOWED_PARENT_TYPES : List String := ["CallExpression", "NewExpression"]

/-- Source: `DECLARATION_TYPES = new Set(['FunctionDeclaration', 'VariableDeclarator'])`. -/
def DECLARATION_TYPES : List String := ["FunctionDeclaration", "VariableDeclarator"]

/-- Source: `IMPORT_TYPES = new Set(['ImportSpecifier', 'ImportNamespaceSpecifier', 'ImportDefaultSpecifier'])`. -/
def IMPORT_TYPES : List String :=
  ["ImportSpecifier", "ImportNamespaceSpecifier", "ImportDefaultSpecifier"]

/-- Source: `isInvalid = (name) => !regexp.test(name)`.  The compiled regular
expression is abstracted by its `test` function. -/
def isInvalid (test : String → Bool) (name : String) : Bool :=
  !(test name)

/-- Source: `shouldReport(effectiveParent, name)`. -/
def shouldReport (cfg : Config) (test : String → Bool)
    (effectiveParent : Node) (name : String) : Bool :=
  (!cfg.onlyDeclarations || DECLARATION_TYPES.contains effectiveParent.type) &&
  !(ALLOWED_PARENT_TYPES.contains effectiveParent.type) &&
  isInvalid test name

/-- Source: `report(node)` — skip when the stringified range is already in the
set, otherwise emit one diagnostic (message variant chosen by
`node.type === 'PrivateIdentifier'`) and add the range to the set. -/
def report (pattern : String) (st : RuleState) (node : Node) : RuleState :=
  if st.reportedNodes.contains (rangeToString node.range) then st
  else
    { reportedNodes := st.reportedNodes ++ [rangeToString node.range],
      diagnostics := st.diagnostics ++
        [{ messageId :=
             if node.type = "PrivateIdentifier" then "notMatchPrivate" else "notMatch",
           name := node.name,
           pattern := pattern,
           node := node }] }

/-- Source: `isInsideObjectPattern(node)` — walk the parent chain looking for
an `ObjectPattern`.  The fuel bounds the walk; an arena of `n` nodes has no
simple parent chain longer than `n`, so fuel `tree.length` is exact on
parent-acyclic arenas (a cyclic chain would not terminate in the source). -/
def isInsideObjectPatternFrom (tree : List Node) : Nat → Option Nat → Bool
  | _, none => false
  | 0, some _ => false
  | fuel + 1, some i =>
    match tree[i]? with
    | none => false
    | some p =>
      if p.type = "ObjectPattern" then true
      else isInsideObjectPatternFrom tree fuel p.parent

/-- `isInsideObjectPattern` starting from `node.parent`, as in the source's
`let { parent } = node; while (parent) ...`. -/
def isInsideObjectPattern (tree : List Node) (node : Node) : Bool :=
  isInsideObjectPatternFrom tree tree.length node.parent

/-- Outcome of the inner `parent.parent.type === 'ObjectPattern'` block of the
`Property`/`AssignmentPattern` branch: it can throw, return early, or fall
through to the trailing checks of that branch. -/
inductive PropFlow where
  | thrown (st : RuleState)
  | returned (st : RuleState)
  | proceed (st : RuleState)
  deriving Repr, DecidableEq

/-- The body of `if (parent.parent?.type === AST_NODE_TYPES.ObjectPattern) { ... }`
in the `Identifier` handler, translated clause by clause:
shorthand-with-default report, the `!('key' in parent)` throw,
`assignmentKeyEqualsValue`, the key-position early return, and the
`valueIsInvalid` report. -/
def objectPatternBlock (cfg : Config) (pattern : String) (test : String → Bool)
    (tree : List Node) (nodeIdx : Nat) (node parent : Node) (name : String)
    (st : RuleState) : PropFlow :=
  let st1 :=
    if (!cfg.ignoreDestructuring &&
        parent.shorthand == some true &&
        (match nodeAt tree parent.value with
         | some v => v.left.isSome
         | none => false) &&
        isInvalid test name) then report pattern st node
    else st
  if parent.key == none then .thrown st1
  else
    let assignmentKeyEqualsValue :=
      match nodeAt tree parent.value, nodeAt tree parent.key with
      | some v, some k => v.name.isSome && k.name.isSome && k.name == v.name
      | _, _ => false
    if !assignmentKeyEqualsValue && parent.key == some nodeIdx then .returned st1
    else
      let valueIsInvalid :=
        (match nodeAt tree parent.value with
         | some v =>
           match v.name with
           | some vn => vn != ""
           | none => false
         | none => false) &&
        isInvalid test name
      if valueIsInvalid && !(assignmentKeyEqualsValue && cfg.ignoreDestructuring) then
        .proceed (report pattern st1 node)
      else .proceed st1

/-- The rule's per-node entry point `Identifier(node)` translated from the
source.  The result is the state after the call plus `some "OK"` when the
handler throws (`throw new Error('OK')`); diagnostics reported before a throw
remain emitted.  Calls on indices outside the arena are no-ops. -/
def Identifier (cfg : Config) (pattern : String) (test : String → Bool)
    (tree : List Node) (st : RuleState) (nodeIdx : Nat) :
    RuleState × Option String :=
  match tree[nodeIdx]? with
  | none => (st, none)
  | some node =>
    let name := node.name.getD ""
    match node.parent with
    | none => (st, none)
    | some parentIdx =>
      match tree[parentIdx]? with
      | none => (st, none)
      | some parent =>
        match (if parent.type = "MemberExpression" then parent.parent else some parentIdx) with
        | none => (st, none)
        | some effIdx =>
          match tree[effIdx]? with
          | none => (st, none)
          | some effectiveParent =>
            if parent.type = "MemberExpression" then
              if !cfg.properties then (st, none)
              else if (match nodeAt tree parent.object with
                       | some o => o.type == "Identifier" && o.name == node.name
                       | none => false) then
                (if isInvalid test name then report pattern st node else st, none)
              else if (effectiveParent.type == "AssignmentExpression" &&
                       (match nodeAt tree effectiveParent.left with
                        | some l =>
                          l.type == "MemberExpression" &&
                          (match nodeAt tree l.property with
                           | some pr => pr.type == "Identifier" && pr.name == node.name
                           | none => false)
                        | none => false)) then
                (if isInvalid test name then report pattern st node else st, none)
              else if (effectiveParent.type == "AssignmentExpression" &&
                       (match nodeAt tree effectiveParent.right with
                        | some r => r.type != "MemberExpression"
                        | none => false) &&
                       isInvalid test name) then
                (report pattern st node, none)
              else (st, none)
            else if parent.type = "Property" ∨ parent.type = "AssignmentPattern" then
              let trailing := fun (st' : RuleState) =>
                if !cfg.properties ||
                   (cfg.ignoreDestructuring && isInsideObjectPattern tree node) then
                  (st', none)
                else if (parent.right == none || parent.right != some nodeIdx) &&
                        shouldReport cfg test effectiveParent name then
                  (report pattern st' node, none)
                else (st', none)
              if (match nodeAt tree parent.parent with
                  | some pp => pp.type == "ObjectPattern"
                  | none => false) then
                match objectPatternBlock cfg pattern test tree nodeIdx node parent name st with
                | .thrown st' => (st', some "OK")
                | .returned st' => (st', none)
                | .proceed st' => trailing st'
              else trailing st
            else if IMPORT_TYPES.contains parent.type then
              if cfg.ignoreNamedImports && parent.type = "ImportSpecifier" then (st, none)
              else if ((match nodeAt tree parent.localIdx with
                        | some l => l.name == node.name
                        | none => false) &&
                       isInvalid test name) then
                (report pattern st node, none)
              else (st, none)
            else if parent.type = "PropertyDefinition" then
              if cfg.classFields && isInvalid test name then (report pattern st node, none)
              else (st, none)
            else if shouldReport cfg test effectiveParent name then
              (report pattern st node, none)
            else (st, none)

/-- Modelled from the spec: the external host performs one depth-first walk
per syntax tree and invokes the rule's per-node entry point on every
identifier-kind node encountered; a thrown error aborts the traversal.  The
walk is given as the list of visited node indices. -/
def runAll (cfg : Config) (pattern : String) (test : String → Bool)
    (tree : List Node) : List Nat → RuleState → RuleState × Option String
  | [], st => (st, none)
  | i :: rest, st =>
    match Identifier cfg pattern test tree st i with
    | (st', some e) => (st', some e)
    | (st', none) => runAll cfg pattern test tree rest st'

/-! ## Semantics of JavaScript regular-expression searching

`new RegExp(pattern, 'u')` / `regexp.test(name)`: `test` succeeds iff the
pattern matches starting at some position of the string — an unanchored
search, not a full match.  `Regex` covers the constructs of the rule's
default pattern `'^.+$'`: character, `.` (any character except a line
terminator), concatenation, alternation, Kleene star, and the `^` / `$`
assertions. -/

/-- ECMAScript line terminators, which `.` does not match. -/
def lineTerm (c : Char) : Bool :=
  c == '\n' || c == '\r' || c == '\u2028' || c == '\u2029'

/-- Abstract syntax of the modelled regular-expression fragment. -/
inductive Regex where
  | char (c : Char)
  | dot
  | epsilon
  | concat (r1 r2 : Regex)
  | alt (r1 r2 : Regex)
  | star (r : Regex)
  | caret
  | dollar
  deriving Repr, DecidableEq

/-- `r+` is `r` followed by `r*`. -/
def Regex.plus (r : Regex) : Regex := .concat r (.star r)

/-- `true` iff the pattern contains no `^` / `$` assertion. -/
def anchorFree : Regex → Bool
  | .char _ => true
  | .dot => true
  | .epsilon => true
  | .concat r1 r2 => anchorFree r1 && anchorFree r2
  | .alt r1 r2 => anchorFree r1 && anchorFree r2
  | .star r => anchorFree r
  | .caret => false
  | .dollar => false

/-- `RMatch r s i j`: the pattern `r` matches the span `[i, j)` of the subject
`s`.  `^` requires position `0`, `$` requires position `s.length` (no
multiline flag). -/
inductive RMatch : Regex → List Char → Nat → Nat → Prop where
  | char {s : List Char} {i : Nat} {c : Char} :
      s[i]? = some c → RMatch (.char c) s i (i + 1)
  | dot {s : List Char} {i : Nat} {c : Char} :
      s[i]? = some c → lineTerm c = false → RMatch .dot s i (i + 1)
  | epsilon {s : List Char} {i : Nat} : RMatch .epsilon s i i
  | concat {r1 r2 : Regex} {s : List Char} {i k j : Nat} :
      RMatch r1 s i k → RMatch r2 s k j → RMatch (.concat r1 r2) s i j
  | altL {r1 r2 : Regex} {s : List Char} {i j : Nat} :
      RMatch r1 s i j → RMatch (.alt r1 r2) s i j
  | altR {r1 r2 : Regex} {s : List Char} {i j : Nat} :
      RMatch r2 s i j → RMatch (.alt r1 r2) s i j
  | starNil {r : Regex} {s : List Char} {i : Nat} : RMatch (.star r) s i i
  | starCons {r : Regex} {s : List Char} {i k j : Nat} :
      RMatch r s i k → RMatch (.star r) s k j → RMatch (.star r) s i j
  | caret {s : List Char} : RMatch .caret s 0 0
  | dollar {s : List Char} : RMatch .dollar s s.length s.length

/-- `regexp.test(s)`: the pattern matches some span of the subject. -/
def jsTest (r : Regex) (s : List Char) : Prop :=
  ∃ i j, RMatch r s i j

/-- The rule's default pattern string (`inputPattern ?? '^.+$'`). -/
def defaultPattern : String := "^.+$"

/-- The compiled form of the default pattern `'^.+$'`. -/
def defaultRegex : Regex := .concat .caret (.concat (Regex.plus .dot) .dollar)

/-! ## Concrete example material

A decidable test standing for a compiled pattern such as `^[^_]+$` that
rejects names containing an underscore, and arena encodings of the source
programs used in the spec's examples. -/

/-- A compiled-pattern test rejecting names with an underscore. -/
def noUnderscore (s : String) : Bool := !(s.data.contains '_')

/-- The pattern text paired with `noUnderscore` in the examples. -/
def underscorePattern : String := "^[^_]+$"

/-- `const { bad_name } = obj;` — shorthand destructuring entry without a
default: the key and the value are two nodes sharing one range. -/
def destructureShorthandTree : List Node := [
  { type := "Program" },
  { type := "VariableDeclaration", parent := some 0 },
  { type := "VariableDeclarator", parent := some 1 },
  { type := "ObjectPattern", parent := some 2 },
  { type := "Property", parent := some 3, key := some 5, value := some 6, shorthand := some true },
  { type := "Identifier", name := some "bad_name", parent := some 4, range := (8, 16) },
  { type := "Identifier", name := some "bad_name", parent := some 4, range := (8, 16) },
  { type := "Identifier", name := some "obj", parent := some 2, range := (20, 23) }]

/-- `const { bad_name = 1 } = obj;` — shorthand destructuring entry with a
default: the value is an `AssignmentPattern` whose left side shares the key's
range. -/
def destructureDefaultTree : List Node := [
  { type := "Program" },
  { type := "VariableDeclaration", parent := some 0 },
  { type := "VariableDeclarator", parent := some 1 },
  { type := "ObjectPattern", parent := some 2 },
  { type := "Property", parent := some 3, key := some 5, value := some 6, shorthand := some true },
  { type := "Identifier", name := some "bad_name", parent := some 4, range := (8, 16) },
  { type := "AssignmentPattern", parent := some 4, left := some 7, right := some 8 },
  { type := "Identifier", name := some "bad_name", parent := some 6, range := (8, 16) },
  { type := "Literal", parent := some 6 },
  { type := "Identifier", name := some "obj", parent := some 2, range := (25, 28) }]

/-- `obj.bad_name;` — a plain member-access read. -/
def memberReadTree : List Node := [
  { type := "Program" },
  { type := "ExpressionStatement", parent := some 0 },
  { type := "MemberExpression", parent := some 1, object := some 3, property := some 4 },
  { type := "Identifier", name := some "obj", parent := some 2, range := (0, 3) },
  { type := "Identifier", name := some "bad_name", parent := some 2, range := (4, 12) }]

/-- `obj.bad_name = 1;` — a member access as assignment target. -/
def memberWriteTree : List Node := [
  { type := "Program" },
  { type := "ExpressionStatement", parent := some 0 },
  { type := "AssignmentExpression", parent := some 1, left := some 3, right := some 6 },
  { type := "MemberExpression", parent := some 2, object := some 4, property := some 5 },
  { type := "Identifier", name := some "obj", parent := some 3, range := (0, 3) },
  { type := "Identifier", name := some "bad_name", parent := some 3, range := (4, 12) },
  { type := "Literal", parent := some 2 }]

/-- `const bad_name = 1; use(bad_name);` — a declaration followed by a use as
call argument. -/
def declarationUseTree : List Node := [
  { type := "Program" },
  { type := "VariableDeclaration", parent := some 0 },
  { type := "VariableDeclarator", parent := some 1 },
  { type := "Identifier", name := some "bad_name", parent := some 2, range := (6, 14) },
  { type := "Literal", parent := some 2 },
  { type := "ExpressionStatement", parent := some 0 },
  { type := "CallExpression", parent := some 5 },
  { type := "Identifier", name := some "use", parent := some 6, range := (20, 23) },
  { type := "Identifier", name := some "bad_name", parent := some 6, range := (24, 32) }]

/-- `import bad_name from 'x';` — a default import binding. -/
def defaultImportTree : List Node := [
  { type := "Program" },
  { type := "ImportDeclaration", parent := some 0 },
  { type := "ImportDefaultSpecifier", parent := some 1, localIdx := some 3 },
  { type := "Identifier", name := some "bad_name", parent := some 2, range := (7, 15) }]

/-- `import { bad_name } from 'x';` — a named import: the imported and the
local identifier are two nodes sharing one range. -/
def namedImportTree : List Node := [
  { type := "Program" },
  { type := "ImportDeclaration", parent := some 0 },
  { type := "ImportSpecifier", parent := some 1, localIdx := some 3 },
  { type := "Identifier", name := some "bad_name", parent := some 2, range := (9, 17) },
  { type := "Identifier", name := some "bad_name", parent := some 2, range := (9, 17) }]

/-- `import { ext_name as goodName } from 'x';` — a renamed import: the
imported (external) identifier differs from the local binding. -/
def renamedImportTree : List Node := [
  { type := "Program" },
  { type := "ImportDeclaration", parent := some 0 },
  { type := "ImportSpecifier", parent := some 1, localIdx := some 4 },
  { type := "Identifier", name := some "ext_name", parent := some 2, range := (9, 17) },
  { type := "Identifier", name := some "goodName", parent := some 2, range := (21, 29) }]

/-- `class A { #bad_name = 1; bad_field = 2 }` — a private and an ordinary
class field. -/
def classFieldsTree : List Node := [
  { type := "Program" },
  { type := "ClassDeclaration", parent := some 0 },
  { type := "ClassBody", parent := some 1 },
  { type := "PropertyDefinition", parent := some 2 },
  { type := "PrivateIdentifier", name := some "bad_name", parent := some 3, range := (10, 19) },
  { type := "PropertyDefinition", parent := some 2 },
  { type := "Identifier", name := some "bad_field", parent := some 5, range := (25, 34) }]

/-- A malformed object-destructuring entry: a shorthand `Property` under an
`ObjectPattern` whose `key` relation is absent but whose value carries a
default.  Node 2 is the visited identifier. -/
def missingKeyTree : List Node := [
  { type := "ObjectPattern" },
  { type := "Property", parent := some 0, value := some 3, shorthand := some true },
  { type := "Identifier", name := some "bad_name", parent := some 1, range := (5, 13) },
  { type := "AssignmentPattern", parent := some 1, left := some 2 }]

/-- Like `missingKeyTree` but with the entry not marked shorthand: the
missing-key exception fires with no diagnostic emitted first. -/
def missingKeyPlainTree : List Node := [
  { type := "ObjectPattern" },
  { type := "Property", parent := some 0, value := some 3 },
  { type := "Identifier", name := some "bad_name", parent := some 1, range := (5, 13) },
  { type := "AssignmentPattern", parent := some 1, left := some 2 }]

/-! ## Invariant machinery for the deduplication claim -/

/-- The state of a `PropFlow` outcome. -/
def PropFlow.state : PropFlow → RuleState
  | .thrown st => st
  | .returned st => st
  | .proceed st => st

/-- `ReportReach st st'`: `st'` arises from `st` by a (possibly empty)
sequence of `report` calls — the only way the entry point changes state. -/
inductive ReportReach : RuleState → RuleState → Prop where
  | refl (st : RuleState) : ReportReach st st
  | step (pattern : String) (node : Node) {st st' : RuleState} :
      ReportReach st st' → ReportReach st (report pattern st' node)

/-- The per-traversal invariant: the stringified ranges of the emitted
diagnostics are exactly the reported-node set, in order, and that set has no
duplicates. -/
def stateInv (st : RuleState) : Prop :=
  st.diagnostics.map (fun d => rangeToString d.node.range) = st.reportedNodes ∧
  st.reportedNodes.Nodup

/-- Index arithmetic for spans embedded in a larger subject. -/
theorem getElem?_append_middle (pre t post : List Char) (i : Nat) (hi : i < t.length) :
    (pre ++ t ++ post)[pre.length + i]? = t[i]? := by
  rw [List.getElem?_append, if_pos (by simp; omega), List.getElem?_append,
      if_neg (by omega)]
  simp

/-- A match of an anchor-free pattern translates to any enclosing subject:
matching a span of `t` gives a match of the corresponding span of
`pre ++ t ++ post`. -/
theorem RMatch_shift (pre post : List Char) {r : Regex} {t : List Char} {i j : Nat}
    (h : RMatch r t i j) :
    anchorFree r = true → RMatch r (pre ++ t ++ post) (pre.length + i) (pre.length + j) := by
  induction h with
  | @char s i c hc =>
    intro _
    have hi : i < s.length := (List.getElem?_eq_some.mp hc).1
    refine RMatch.char ?_
    rw [getElem?_append_middle pre s post i hi]
    exact hc
  | @dot s i c hc hl =>
    intro _
    have hi : i < s.length := (List.getElem?_eq_some.mp hc).1
    refine RMatch.dot ?_ hl
    rw [getElem?_append_middle pre s post i hi]
    exact hc
  | epsilon => exact fun _ => RMatch.epsilon
  | concat h1 h2 ih1 ih2 =>
    intro hfree
    rw [anchorFree, Bool.and_eq_true] at hfree
    exact RMatch.concat (ih1 hfree.1) (ih2 hfree.2)
  | altL h1 ih1 =>
    intro hfree
    rw [anchorFree, Bool.and_eq_true] at hfree
    exact RMatch.altL (ih1 hfree.1)
  | altR h2 ih2 =>
    intro hfree
    rw [anchorFree, Bool.and_eq_true] at hfree
    exact RMatch.altR (ih2 hfree.2)
  | starNil => exact fun _ => RMatch.starNil
  | starCons h1 h2 ih1 ih2 =>
    intro hfree
    have hfree' : anchorFree _ = true := hfree
    exact RMatch.starCons (ih1 hfree') (ih2 hfree)
  | caret => intro hfree; simp [anchorFree] at hfree
  | dollar => intro hfree; simp [anchorFree] at hfree

/-- Every position inside a span matched by `.*` holds a non-line-terminator
character. -/
theorem starDot_spans {r : Regex} {s : List Char} {i j : Nat} (h : RMatch r s i j) :
    r = Regex.star Regex.dot →
    i ≤ j ∧ ∀ k, i ≤ k → k < j → ∃ c, s[k]? = some c ∧ lineTerm c = false := by
  induction h with
  | char _ => intro hr; simp at hr
  | dot _ _ => intro hr; simp at hr
  | epsilon => intro hr; simp at hr
  | concat _ _ _ _ => intro hr; simp at hr
  | altL _ _ => intro hr; simp at hr
  | altR _ _ => intro hr; simp at hr
  | caret => intro hr; simp at hr
  | dollar => intro hr; simp at hr
  | starNil => exact fun _ => ⟨le_rfl, fun k h1 h2 => absurd h2 (by omega)⟩
  | starCons h1 h2 ih1 ih2 =>
    intro hr
    injection hr with hr'
    subst hr'
    cases h1 with
    | dot hc hl =>
      obtain ⟨hle, hall⟩ := ih2 rfl
      refine ⟨by omega, fun k hk1 hk2 => ?_⟩
      rcases Nat.eq_or_lt_of_le hk1 with he | hlt
      · exact he ▸ ⟨_, hc, hl⟩
      · exact hall k (by omega) hk2

/-- `.*` matches any span all of whose positions hold non-line-terminator
characters: auxiliary form with explicit fuel for the induction. -/
theorem starDot_build_aux (s : List Char) (j : Nat) :
    ∀ n i, j - i ≤ n → i ≤ j →
      (∀ k, i ≤ k → k < j → ∃ c, s[k]? = some c ∧ lineTerm c = false) →
      RMatch (Regex.star Regex.dot) s i j := by
  intro n
  induction n with
  | zero =>
    intro i h0 hij _
    have : i = j := by omega
    subst this
    exact RMatch.starNil
  | succ n ih =>
    intro i hle hij hch
    by_cases hij' : i = j
    · subst hij'; exact RMatch.starNil
    · have hi : i < j := lt_of_le_of_ne hij hij'
      obtain ⟨c, hc, hl⟩ := hch i le_rfl hi
      exact RMatch.starCons (RMatch.dot hc hl)
        (ih (i + 1) (by omega) hi (fun k hk1 hk2 => hch k (by omega) hk2))

/-- `.*` matches any span all of whose positions hold non-line-terminator
characters. -/
theorem starDot_build {s : List Char} {i j : Nat} (hij : i ≤ j)
    (hch : ∀ k, i ≤ k → k < j → ∃ c, s[k]? = some c ∧ lineTerm c = false) :
    RMatch (Regex.star Regex.dot) s i j :=
  starDot_build_aux s j (j - i) i le_rfl hij hch

/-- The default pattern `'^.+$'` accepts exactly the non-empty subjects free
of line terminators. -/
theorem jsTest_default_iff (s : List Char) :
    jsTest defaultRegex s ↔ s ≠ [] ∧ ∀ c ∈ s, lineTerm c = false := by
  constructor
  · rintro ⟨i, j, h⟩
    cases h with
    | concat h1 h2 =>
      cases h1
      cases h2 with
      | concat h3 h4 =>
        cases h4
        cases h3 with
        | concat h5 h6 =>
          cases h5 with
          | @dot _ _ c0 hc hl =>
            obtain ⟨_, hall⟩ := starDot_spans h6 rfl
            constructor
            · intro hs; subst hs; simp at hc
            · intro c hcmem
              obtain ⟨k, hk⟩ := List.mem_iff_getElem?.mp hcmem
              have hklen : k < s.length := (List.getElem?_eq_some.mp hk).1
              rcases Nat.eq_zero_or_pos k with hk0 | hkpos
              · subst hk0
                rw [hk] at hc
                cases hc
                exact hl
              · obtain ⟨c', hc', hl'⟩ := hall k hkpos hklen
                rw [hk] at hc'
                cases hc'
                exact hl'
  · rintro ⟨hne, hall⟩
    have hlen : 0 < s.length := List.length_pos.mpr hne
    have hc0 : s[0]? = some s[0] := List.getElem?_eq_getElem hlen
    refine ⟨0, s.length,
      RMatch.concat RMatch.caret
        (RMatch.concat
          (RMatch.concat (RMatch.dot hc0 (hall _ (s.getElem_mem hlen)))
            (starDot_build hlen (fun k _ hk2 => ?_)))
          RMatch.dollar)⟩
    exact ⟨s[k], List.getElem?_eq_getElem hk2, hall _ (s.getElem_mem hk2)⟩

/-- C10: the pattern is applied as an unanchored search.  `isInvalid` negates
`regexp.test`; for a compiled test agreeing with the search semantics a name
is valid exactly when the pattern matches somewhere within it; any subject
containing a full match of an anchor-free pattern is accepted by the search;
and the default pattern `'^.+$'` accepts exactly the non-empty names free of
line terminators, hence every non-empty identifier name. -/
theorem c10_test_is_unanchored_search :
    (∀ (test : String → Bool) (name : String), isInvalid test name = !(test name)) ∧
    (∀ (r : Regex) (test : String → Bool),
      (∀ x : String, test x = true ↔ jsTest r x.data) →
      ∀ name : String, isInvalid test name = false ↔ jsTest r name.data) ∧
    (∀ (r : Regex) (t pre post : List Char), anchorFree r = true →
      RMatch r t 0 t.length → jsTest r (pre ++ t ++ post)) ∧
    (∀ s : List Char, jsTest defaultRegex s ↔ s ≠ [] ∧ ∀ c ∈ s, lineTerm c = false) := by
  refine ⟨fun _ _ => rfl, ?_, ?_, jsTest_default_iff⟩
  · intro r test h name
    rw [isInvalid, Bool.not_eq_false']
    exact h name
  · intro r t pre post hfree hm
    exact ⟨_, _, RMatch_shift pre post hm hfree⟩

/-- Witness for C10: the default pattern accepts the concrete name `ok`. -/
theorem c10_test_is_unanchored_search_witness :
    jsTest defaultRegex ("ok".data) :=
  (c10_test_is_unanchored_search.2.2.2 ("ok".data)).mpr ⟨by decide, by decide⟩

/-! ## The per-node entry point on matching names -/

/-- Every conjunct of `shouldReport` ends in `isInvalid`, so a matching name
is never reported through it. -/
theorem shouldReport_of_valid {test : String → Bool} {name : String}
    (h : isInvalid test name = false) (cfg : Config) (ep : Node) :
    shouldReport cfg test ep name = false := by
  simp [shouldReport, h]

/-- On a matching name both `report` sites of the object-pattern block are
skipped, leaving only the control-flow outcome applied to the unchanged
state. -/
theorem objectPatternBlock_of_valid {test : String → Bool} {name : String}
    (h : isInvalid test name = false) (cfg : Config) (pattern : String)
    (tree : List Node) (nodeIdx : Nat) (node parent : Node) (st : RuleState) :
    objectPatternBlock cfg pattern test tree nodeIdx node parent name st = .thrown st ∨
    objectPatternBlock cfg pattern test tree nodeIdx node parent name st = .returned st ∨
    objectPatternBlock cfg pattern test tree nodeIdx node parent name st = .proceed st := by
  rw [objectPatternBlock]
  simp only [h, Bool.and_false, Bool.false_and, Bool.false_eq_true, if_false, ite_self]
  split
  · exact Or.inl rfl
  · split
    · exact Or.inr (Or.inl rfl)
    · exact Or.inr (Or.inr rfl)

/-- C1: for every syntax tree, compiled pattern and configuration, an
identifier node whose name passes the test leaves the state untouched — no
diagnostic is emitted for it in any syntactic context. -/
theorem c1_matching_name_not_reported
    (cfg : Config) (pattern : String) (test : String → Bool) (tree : List Node)
    (st : RuleState) (idx : Nat) (node : Node) (nm : String)
    (hget : tree[idx]? = some node) (hname : node.name = some nm)
    (hmatch : test nm = true) :
    (Identifier cfg pattern test tree st idx).1 = st := by
  have hinv : isInvalid test nm = false := by simp [isInvalid, hmatch]
  simp only [Identifier, hget, hname, Option.getD_some, shouldReport_of_valid hinv,
    hinv, Bool.and_false, Bool.false_and, Bool.false_eq_true, if_false, ite_self]
  cases hpar : node.parent with
  | none => rfl
  | some pIdx =>
    dsimp only
    cases hp : tree[pIdx]? with
    | none => rfl
    | some parent =>
      dsimp only
      by_cases hmem : parent.type = "MemberExpression"
      · simp only [if_pos hmem]
        cases hpp : parent.parent with
        | none => rfl
        | some ppIdx =>
          dsimp only
          cases hpe : tree[ppIdx]? with
          | none => rfl
          | some effP => rfl
      · simp only [if_neg hmem]
        try dsimp only
        try rw [hp]
        try dsimp only
        by_cases hprop : parent.type = "Property" ∨ parent.type = "AssignmentPattern"
        · simp only [if_pos hprop]
          split
          · rcases objectPatternBlock_of_valid hinv cfg pattern tree idx node parent st with
              hofv | hofv | hofv <;> rw [hofv]
          · rfl
        · simp only [if_neg hprop]
          try rfl

/-- Witness for C1 at the valid identifier `use` of
`const bad_name = 1; use(bad_name);`. -/
theorem c1_matching_name_not_reported_witness :
    (Identifier {} underscorePattern noUnderscore declarationUseTree initialState 7).1 =
      initialState :=
  c1_matching_name_not_reported _ _ _ _ _ _ _ "use" rfl rfl (by decide)

/-- A class-field identifier (parent of kind `PropertyDefinition`) failing the
test is reported with the message variant selected by the node's own kind
tag. -/
theorem classFieldReport
    (cfg : Config) (pattern : String) (test : String → Bool) (tree : List Node)
    (st : RuleState) (idx pIdx : Nat) (node parent : Node) (nm : String)
    (hget : tree[idx]? = some node) (hpar : node.parent = some pIdx)
    (hpget : tree[pIdx]? = some parent)
    (hpty : parent.type = "PropertyDefinition")
    (hclass : cfg.classFields = true) (hname : node.name = some nm)
    (htest : test nm = false)
    (hfresh : st.reportedNodes.contains (rangeToString node.range) = false) :
    (Identifier cfg pattern test tree st idx).1.diagnostics =
      st.diagnostics ++
        [{ messageId :=
             if node.type = "PrivateIdentifier" then "notMatchPrivate" else "notMatch",
           name := some nm, pattern := pattern, node := node }] := by
  simp only [Identifier, hget, hpar, hpget, hname, Option.getD_some, hpty, hclass,
    isInvalid, htest, report, hfresh, IMPORT_TYPES]
  simp [hpget]

/-- C2: with class-field checking enabled, a private class field failing the
pattern is reported with the `notMatchPrivate` variant while an ordinary class
field is reported with the `notMatch` variant, and the two variants differ. -/
theorem c2_private_field_message_variant :
    (∀ (cfg : Config) (pattern : String) (test : String → Bool) (tree : List Node)
       (st : RuleState) (idx pIdx : Nat) (node parent : Node) (nm : String),
      tree[idx]? = some node → node.parent = some pIdx → tree[pIdx]? = some parent →
      parent.type = "PropertyDefinition" → cfg.classFields = true →
      node.type = "PrivateIdentifier" → node.name = some nm → test nm = false →
      st.reportedNodes.contains (rangeToString node.range) = false →
      (Identifier cfg pattern test tree st idx).1.diagnostics =
        st.diagnostics ++
          [{ messageId := "notMatchPrivate", name := some nm,
             pattern := pattern, node := node }]) ∧
    (∀ (cfg : Config) (pattern : String) (test : String → Bool) (tree : List Node)
       (st : RuleState) (idx pIdx : Nat) (node parent : Node) (nm : String),
      tree[idx]? = some node → node.parent = some pIdx → tree[pIdx]? = some parent →
      parent.type = "PropertyDefinition" → cfg.classFields = true →
      node.type ≠ "PrivateIdentifier" → node.name = some nm → test nm = false →
      st.reportedNodes.contains (rangeToString node.range) = false →
      (Identifier cfg pattern test tree st idx).1.diagnostics =
        st.diagnostics ++
          [{ messageId := "notMatch", name := some nm,
             pattern := pattern, node := node }]) ∧
    ("notMatchPrivate" : String) ≠ "notMatch" := by
  refine ⟨?_, ?_, by decide⟩
  · intro cfg pattern test tree st idx pIdx node parent nm
      hget hpar hpget hpty hclass hnodety hname htest hfresh
    rw [classFieldReport cfg pattern test tree st idx pIdx node parent nm
      hget hpar hpget hpty hclass hname htest hfresh, if_pos hnodety]
  · intro cfg pattern test tree st idx pIdx node parent nm
      hget hpar hpget hpty hclass hnodety hname htest hfresh
    rw [classFieldReport cfg pattern test tree st idx pIdx node parent nm
      hget hpar hpget hpty hclass hname htest hfresh, if_neg hnodety]

/-- Witness for C2 on `class A { #bad_name = 1; bad_field = 2 }` with
`classFields: true`. -/
theorem c2_private_field_message_variant_witness :
    (Identifier { classFields := true } underscorePattern noUnderscore
        classFieldsTree initialState 4).1.diagnostics =
      [{ messageId := "notMatchPrivate", name := some "bad_name",
         pattern := underscorePattern,
         node := { type := "PrivateIdentifier", name := some "bad_name",
                   parent := some 3, range := (10, 19) } }] ∧
    (Identifier { classFields := true } underscorePattern noUnderscore
        classFieldsTree initialState 6).1.diagnostics =
      [{ messageId := "notMatch", name := some "bad_field",
         pattern := underscorePattern,
         node := { type := "Identifier", name := some "bad_field",
                   parent := some 5, range := (25, 34) } }] :=
  ⟨c2_private_field_message_variant.1 _ _ _ _ _ _ 3 _ _ "bad_name"
      rfl rfl rfl rfl rfl rfl rfl (by decide) (by decide),
   c2_private_field_message_variant.2.1 _ _ _ _ _ _ 5 _ _ "bad_field"
      rfl rfl rfl rfl rfl (by decide) rfl (by decide) (by decide)⟩

/-- C6: an identifier whose parent is a call or constructor invocation — in
particular every argument of one — is never reported, for every
configuration, pattern and state. -/
theorem c6_call_arguments_exempt
    (cfg : Config) (pattern : String) (test : String → Bool) (tree : List Node)
    (st : RuleState) (idx pIdx : Nat) (node parent : Node)
    (hget : tree[idx]? = some node) (hpar : node.parent = some pIdx)
    (hpget : tree[pIdx]? = some parent)
    (htype : parent.type = "CallExpression" ∨ parent.type = "NewExpression") :
    Identifier cfg pattern test tree st idx = (st, none) := by
  rcases htype with h | h <;>
    simp [Identifier, hget, hpar, hpget, h, shouldReport,
      ALLOWED_PARENT_TYPES, DECLARATION_TYPES, IMPORT_TYPES]

/-- Witness for C6 at the call argument `bad_name` of `use(bad_name)`. -/
theorem c6_call_arguments_exempt_witness :
    Identifier {} underscorePattern noUnderscore declarationUseTree initialState 8 =
      (initialState, none) :=
  c6_call_arguments_exempt _ _ _ _ _ _ 6 _ _ rfl rfl rfl (Or.inl rfl)

/-- C7: with `onlyDeclarations` enabled the general test only fires on
function-declaration or variable-declarator effective parents, and on
`const bad_name = 1; use(bad_name);` exactly the declaration site is
flagged. -/
theorem c7_only_declarations :
    (∀ (cfg : Config) (test : String → Bool) (ep : Node) (nm : String),
      cfg.onlyDeclarations = true → shouldReport cfg test ep nm = true →
      ep.type = "FunctionDeclaration" ∨ ep.type = "VariableDeclarator") ∧
    (runAll { onlyDeclarations := true } underscorePattern noUnderscore
        declarationUseTree [3, 7, 8] initialState).1.diagnostics.map
      (fun d => d.node.range) = [(6, 14)] := by
  refine ⟨?_, by decide⟩
  intro cfg test ep nm honly hsr
  rw [shouldReport, honly] at hsr
  simp only [Bool.not_true, Bool.false_or, Bool.and_eq_true] at hsr
  have hmem : ep.type ∈ DECLARATION_TYPES := by
    simpa using hsr.1.1
  simpa [DECLARATION_TYPES] using hmem

/-- Witness for C7 at a concrete `VariableDeclarator` effective parent. -/
theorem c7_only_declarations_witness :
    (({ onlyDeclarations := true } : Config).onlyDeclarations = true ∧
      shouldReport { onlyDeclarations := true } noUnderscore
        { type := "VariableDeclarator", parent := some 1 } "bad_name" = true) ∧
    (({ type := "VariableDeclarator", parent := some 1 } : Node).type =
        "FunctionDeclaration" ∨
      ({ type := "VariableDeclarator", parent := some 1 } : Node).type =
        "VariableDeclarator") :=
  ⟨⟨rfl, by decide⟩,
   c7_only_declarations.1 { onlyDeclarations := true } noUnderscore
     { type := "VariableDeclarator", parent := some 1 } "bad_name" rfl (by decide)⟩

/-- C8: with `ignoreNamedImports` enabled a named-import binding is never
reported; a default-import binding whose local name fails the test is still
reported; and in every import context a node whose name is not the local
bound name is never reported. -/
theorem c8_named_imports :
    (∀ (cfg : Config) (pattern : String) (test : String → Bool) (tree : List Node)
       (st : RuleState) (idx pIdx : Nat) (node parent : Node),
      tree[idx]? = some node → node.parent = some pIdx → tree[pIdx]? = some parent →
      parent.type = "ImportSpecifier" → cfg.ignoreNamedImports = true →
      Identifier cfg pattern test tree st idx = (st, none)) ∧
    (∀ (cfg : Config) (pattern : String) (test : String → Bool) (tree : List Node)
       (st : RuleState) (idx pIdx : Nat) (node parent l : Node) (nm : String),
      tree[idx]? = some node → node.parent = some pIdx → tree[pIdx]? = some parent →
      parent.type = "ImportDefaultSpecifier" →
      nodeAt tree parent.localIdx = some l → l.name = node.name →
      node.name = some nm → node.type = "Identifier" → test nm = false →
      st.reportedNodes.contains (rangeToString node.range) = false →
      (Identifier cfg pattern test tree st idx).1.diagnostics =
        st.diagnostics ++
          [{ messageId := "notMatch", name := some nm,
             pattern := pattern, node := node }]) ∧
    (∀ (cfg : Config) (pattern : String) (test : String → Bool) (tree : List Node)
       (st : RuleState) (idx pIdx : Nat) (node parent : Node),
      tree[idx]? = some node → node.parent = some pIdx → tree[pIdx]? = some parent →
      IMPORT_TYPES.contains parent.type = true →
      (match nodeAt tree parent.localIdx with
       | some l => l.name == node.name
       | none => false) = false →
      Identifier cfg pattern test tree st idx = (st, none)) := by
  refine ⟨?_, ?_, ?_⟩
  · intro cfg pattern test tree st idx pIdx node parent
      hget hpar hpget hpty hign
    simp [Identifier, hget, hpar, hpget, hpty, hign, IMPORT_TYPES]
  · intro cfg pattern test tree st idx pIdx node parent l nm
      hget hpar hpget hpty hloc hlname hname hnodety htest hfresh
    have hfresh' : rangeToString node.range ∉ st.reportedNodes := by
      simpa using hfresh
    simp [Identifier, hget, hpar, hpget, hpty, hloc, hlname, hname, hnodety,
      htest, hfresh, hfresh', IMPORT_TYPES, isInvalid, report]
  · intro cfg pattern test tree st idx pIdx node parent
      hget hpar hpget hcont hloc
    have hty : parent.type = "ImportSpecifier" ∨
        parent.type = "ImportNamespaceSpecifier" ∨
        parent.type = "ImportDefaultSpecifier" := by
      simpa [IMPORT_TYPES] using hcont
    rcases hty with h | h | h <;>
      simp [Identifier, hget, hpar, hpget, h, hloc, IMPORT_TYPES]

/-- Witness for C8 on the named-, default- and renamed-import trees. -/
theorem c8_named_imports_witness :
    Identifier { ignoreNamedImports := true } underscorePattern noUnderscore
        namedImportTree initialState 3 = (initialState, none) ∧
    (Identifier { ignoreNamedImports := true } underscorePattern noUnderscore
        defaultImportTree initialState 3).1.diagnostics =
      [{ messageId := "notMatch", name := some "bad_name",
         pattern := underscorePattern,
         node := { type := "Identifier", name := some "bad_name",
                   parent := some 2, range := (7, 15) } }] ∧
    Identifier {} underscorePattern noUnderscore renamedImportTree
        initialState 3 = (initialState, none) :=
  ⟨c8_named_imports.1 _ _ _ _ _ _ 2 _ _ rfl rfl rfl rfl rfl,
   c8_named_imports.2.1 _ _ _ _ _ _ 2 _ _ _ "bad_name"
     rfl rfl rfl rfl rfl rfl rfl rfl (by decide) rfl,
   c8_named_imports.2.2 _ _ _ _ _ _ 2 _ _ rfl rfl rfl (by decide) (by decide)⟩

/-- C3 counterexample: with `ignoreDestructuring: true`, processing every
identifier of `const { bad_name = 1 } = obj;` (key, default-value left side,
and initializer) emits no diagnostic at all, although `bad_name` fails the
pattern — the claim's "shorthand entry with a default IS flagged" is false on
the code. -/
theorem c3_ignore_destructuring_counterexample :
    isInvalid noUnderscore "bad_name" = true ∧
    runAll { ignoreDestructuring := true } underscorePattern noUnderscore
      destructureDefaultTree [5, 7, 9] initialState = (initialState, none) :=
  ⟨by decide, by decide⟩

/-- C3 amended: with `ignoreDestructuring` enabled (and property checking
disabled, its default) neither the shorthand entry without a default nor the
shorthand entry with a default is flagged; the shorthand-with-default entry is
flagged exactly when `ignoreDestructuring` is disabled. -/
theorem c3_ignore_destructuring_amended :
    (∀ (cfg : Config) (pattern : String) (test : String → Bool) (tree : List Node)
       (st : RuleState) (idx pIdx kIdx vIdx : Nat)
       (node parent ppNode keyNode valNode : Node),
      cfg.ignoreDestructuring = true → cfg.properties = false →
      tree[idx]? = some node → node.parent = some pIdx → tree[pIdx]? = some parent →
      parent.type = "Property" →
      nodeAt tree parent.parent = some ppNode → ppNode.type = "ObjectPattern" →
      parent.key = some kIdx → tree[kIdx]? = some keyNode →
      parent.value = some vIdx → tree[vIdx]? = some valNode →
      ((∃ nm, keyNode.name = some nm ∧ valNode.name = some nm) ∨
        (kIdx = idx ∧ valNode.name = none)) →
      Identifier cfg pattern test tree st idx = (st, none)) ∧
    (∀ (cfg : Config) (pattern : String) (test : String → Bool) (tree : List Node)
       (st : RuleState) (idx pIdx : Nat) (node parent ppNode : Node),
      cfg.properties = false →
      tree[idx]? = some node → node.parent = some pIdx → tree[pIdx]? = some parent →
      parent.type = "AssignmentPattern" →
      nodeAt tree parent.parent = some ppNode → ppNode.type ≠ "ObjectPattern" →
      Identifier cfg pattern test tree st idx = (st, none)) ∧
    (∀ (cfg : Config) (pattern : String) (test : String → Bool) (tree : List Node)
       (st : RuleState) (idx pIdx vIdx : Nat) (node parent ppNode valNode : Node)
       (nm : String),
      cfg.ignoreDestructuring = false →
      tree[idx]? = some node → node.parent = some pIdx → tree[pIdx]? = some parent →
      parent.type = "Property" →
      nodeAt tree parent.parent = some ppNode → ppNode.type = "ObjectPattern" →
      parent.shorthand = some true →
      parent.value = some vIdx → tree[vIdx]? = some valNode →
      valNode.left.isSome = true → valNode.name = none →
      parent.key = some idx →
      node.name = some nm → node.type = "Identifier" → test nm = false →
      st.reportedNodes.contains (rangeToString node.range) = false →
      (Identifier cfg pattern test tree st idx).1.diagnostics =
        st.diagnostics ++
          [{ messageId := "notMatch", name := some nm,
             pattern := pattern, node := node }]) := by
  refine ⟨?_, ?_, ?_⟩
  · intro cfg pattern test tree st idx pIdx kIdx vIdx node parent ppNode keyNode valNode
      hiD hprops hget hpar hpget hpty hpp hppty hkey hkget hval hvget hcase
    simp only [nodeAt] at hpp
    rcases hcase with ⟨nm, hkn, hvn⟩ | ⟨hkidx, hvn⟩
    · simp [Identifier, objectPatternBlock, nodeAt, hget, hpar, hpget, hpty, hpp,
        hppty, hkey, hkget, hval, hvget, hkn, hvn, hiD, hprops]
    · subst hkidx
      simp [Identifier, objectPatternBlock, nodeAt, hget, hpar, hpget, hpty, hpp,
        hppty, hkey, hkget, hval, hvget, hvn, hiD, hprops]
  · intro cfg pattern test tree st idx pIdx node parent ppNode
      hprops hget hpar hpget hpty hpp hppty
    simp only [nodeAt] at hpp
    simp [Identifier, objectPatternBlock, nodeAt, hget, hpar, hpget, hpty, hpp,
      hppty, hprops]
  · intro cfg pattern test tree st idx pIdx vIdx node parent ppNode valNode nm
      hiD hget hpar hpget hpty hpp hppty hsh hval hvget hleft hvn hkey hname
      hnodety htest hfresh
    simp only [nodeAt] at hpp
    have hfresh' : rangeToString node.range ∉ st.reportedNodes := by
      simpa using hfresh
    simp [Identifier, objectPatternBlock, nodeAt, hget, hpar, hpget, hpty, hpp,
      hppty, hsh, hval, hvget, hleft, hvn, hkey, hname, hnodety, htest, hfresh,
      hfresh', hiD, isInvalid, report]

/-- Witness for the amended C3 on the two destructuring trees. -/
theorem c3_ignore_destructuring_amended_witness :
    Identifier { ignoreDestructuring := true } underscorePattern noUnderscore
        destructureShorthandTree initialState 5 = (initialState, none) ∧
    Identifier { ignoreDestructuring := true } underscorePattern noUnderscore
        destructureDefaultTree initialState 7 = (initialState, none) ∧
    (Identifier {} underscorePattern noUnderscore
        destructureDefaultTree initialState 5).1.diagnostics =
      [{ messageId := "notMatch", name := some "bad_name",
         pattern := underscorePattern,
         node := { type := "Identifier", name := some "bad_name",
                   parent := some 4, range := (8, 16) } }] :=
  ⟨c3_ignore_destructuring_amended.1 _ _ _ _ _ _ 4 5 6 _ _ _ _ _
      rfl rfl rfl rfl rfl rfl rfl rfl rfl rfl rfl rfl
      (Or.inl ⟨"bad_name", rfl, rfl⟩),
   c3_ignore_destructuring_amended.2.1 _ _ _ _ _ _ 6 _ _ _
      rfl rfl rfl rfl rfl rfl (by decide),
   c3_ignore_destructuring_amended.2.2 _ _ _ _ _ _ 4 6 _ _ _ _ "bad_name"
      rfl rfl rfl rfl rfl rfl rfl rfl rfl rfl rfl rfl rfl rfl rfl
      (by decide) rfl⟩

/-- C4 counterexample: with `properties: true`, processing both identifiers
of the plain read `obj.bad_name;` emits no diagnostic although `bad_name`
fails the pattern — the claim's "with property checking enabled a diagnostic
is emitted" is false on the code for a bare member-access read. -/
theorem c4_properties_counterexample :
    isInvalid noUnderscore "bad_name" = true ∧
    runAll { properties := true } underscorePattern noUnderscore
      memberReadTree [3, 4] initialState = (initialState, none) :=
  ⟨by decide, by decide⟩

/-- C4 amended: with property checking disabled a member-access property
identifier is never reported; with property checking enabled it is reported
when the member access is the target of an assignment (the
`effectiveParent.left.property` case), while a bare read is not flagged. -/
theorem c4_properties_amended :
    (∀ (cfg : Config) (pattern : String) (test : String → Bool) (tree : List Node)
       (st : RuleState) (idx pIdx : Nat) (node parent : Node),
      cfg.properties = false →
      tree[idx]? = some node → node.parent = some pIdx → tree[pIdx]? = some parent →
      parent.type = "MemberExpression" →
      Identifier cfg pattern test tree st idx = (st, none)) ∧
    (∀ (cfg : Config) (pattern : String) (test : String → Bool) (tree : List Node)
       (st : RuleState) (idx pIdx effIdx : Nat)
       (node parent effP o l pr : Node) (nm : String),
      cfg.properties = true →
      tree[idx]? = some node → node.parent = some pIdx → tree[pIdx]? = some parent →
      parent.type = "MemberExpression" → parent.parent = some effIdx →
      tree[effIdx]? = some effP →
      nodeAt tree parent.object = some o → o.name ≠ node.name →
      effP.type = "AssignmentExpression" →
      nodeAt tree effP.left = some l → l.type = "MemberExpression" →
      nodeAt tree l.property = some pr → pr.type = "Identifier" →
      pr.name = node.name →
      node.name = some nm → node.type = "Identifier" → test nm = false →
      st.reportedNodes.contains (rangeToString node.range) = false →
      (Identifier cfg pattern test tree st idx).1.diagnostics =
        st.diagnostics ++
          [{ messageId := "notMatch", name := some nm,
             pattern := pattern, node := node }]) := by
  constructor
  · intro cfg pattern test tree st idx pIdx node parent
      hprops hget hpar hpget hpty
    simp only [Identifier, hget, hpar, hpget, Option.getD_some, hpty,
      String.reduceEq, reduceIte]
    cases hpp : parent.parent with
    | none => simp
    | some effIdx =>
      dsimp only
      cases he : tree[effIdx]? with
      | none => simp
      | some effP => simp [hprops]
  · intro cfg pattern test tree st idx pIdx effIdx node parent effP o l pr nm
      hprops hget hpar hpget hpty hppar heffget hobj honame heffty hleft hlty
      hlprop hprty hprname hname hnodety htest hfresh
    simp only [nodeAt] at hobj hleft hlprop
    rw [hname] at honame hprname
    have hfresh' : rangeToString node.range ∉ st.reportedNodes := by
      simpa using hfresh
    simp [Identifier, nodeAt, hget, hpar, hpget, hpty, hppar, heffget, hobj,
      honame, heffty, hleft, hlty, hlprop, hprty, hprname, hname, hnodety,
      htest, hfresh, hfresh', hprops, isInvalid, report]

/-- Witness for the amended C4 on the read and write member-access trees. -/
theorem c4_properties_amended_witness :
    Identifier {} underscorePattern noUnderscore memberReadTree initialState 4 =
      (initialState, none) ∧
    (Identifier { properties := true } underscorePattern noUnderscore
        memberWriteTree initialState 5).1.diagnostics =
      [{ messageId := "notMatch", name := some "bad_name",
         pattern := underscorePattern,
         node := { type := "Identifier", name := some "bad_name",
                   parent := some 3, range := (4, 12) } }] :=
  ⟨c4_properties_amended.1 _ _ _ _ _ _ 2 _ _ rfl rfl rfl rfl rfl,
   c4_properties_amended.2 _ _ _ _ _ _ 3 2 _ _ _ _ _ _ "bad_name"
      rfl rfl rfl rfl rfl rfl rfl rfl (by decide) rfl rfl rfl rfl rfl rfl
      rfl rfl (by decide) rfl⟩

/-! ## Deduplication: at most one diagnostic per source range -/

/-- `report` preserves the per-traversal invariant. -/
theorem report_stateInv (pattern : String) (node : Node) {st : RuleState}
    (h : stateInv st) : stateInv (report pattern st node) := by
  rw [report]
  split
  · exact h
  · rename_i hc
    have hk : rangeToString node.range ∉ st.reportedNodes := by simpa using hc
    refine ⟨by simp [h.1], ?_⟩
    refine List.Nodup.append h.2 (List.nodup_singleton _) ?_
    intro a ha hb
    simp only [List.mem_singleton] at hb
    subst hb
    exact hk ha

/-- Any state reachable by `report` steps satisfies the invariant if the
start state does. -/
theorem reportReach_stateInv {st st' : RuleState} (h : ReportReach st st')
    (hinv : stateInv st) : stateInv st' := by
  induction h with
  | refl => exact hinv
  | step pattern node _ ih => exact report_stateInv pattern node (ih hinv)

/-- The object-pattern block only changes state through `report`. -/
theorem objectPatternBlock_reach (cfg : Config) (pattern : String)
    (test : String → Bool) (tree : List Node) (nodeIdx : Nat)
    (node parent : Node) (name : String) (st : RuleState) :
    ReportReach st
      (objectPatternBlock cfg pattern test tree nodeIdx node parent name st).state := by
  simp only [objectPatternBlock]
  repeat' split
  all_goals
    first
      | exact ReportReach.refl _
      | exact ReportReach.step _ _ (ReportReach.refl _)
      | exact ReportReach.step _ _ (ReportReach.step _ _ (ReportReach.refl _))

/-- Version of `objectPatternBlock_reach` keyed on an equation, for use at
hypotheses produced by case splits. -/
theorem reach_of_opb {cfg : Config} {pattern : String} {test : String → Bool}
    {tree : List Node} {nodeIdx : Nat} {node parent : Node} {name : String}
    {st : RuleState} {f : PropFlow}
    (h : objectPatternBlock cfg pattern test tree nodeIdx node parent name st = f) :
    ReportReach st f.state := by
  subst h
  exact objectPatternBlock_reach cfg pattern test tree nodeIdx node parent name st

/-- `reach_of_opb` at a `thrown` outcome. -/
theorem reach_of_opb_thrown {cfg : Config} {pattern : String} {test : String → Bool}
    {tree : List Node} {nodeIdx : Nat} {node parent : Node} {name : String}
    {st st' : RuleState}
    (h : objectPatternBlock cfg pattern test tree nodeIdx node parent name st =
      .thrown st') : ReportReach st st' :=
  reach_of_opb h

/-- `reach_of_opb` at a `returned` outcome. -/
theorem reach_of_opb_returned {cfg : Config} {pattern : String} {test : String → Bool}
    {tree : List Node} {nodeIdx : Nat} {node parent : Node} {name : String}
    {st st' : RuleState}
    (h : objectPatternBlock cfg pattern test tree nodeIdx node parent name st =
      .returned st') : ReportReach st st' :=
  reach_of_opb h

/-- `reach_of_opb` at a `proceed` outcome. -/
theorem reach_of_opb_proceed {cfg : Config} {pattern : String} {test : String → Bool}
    {tree : List Node} {nodeIdx : Nat} {node parent : Node} {name : String}
    {st st' : RuleState}
    (h : objectPatternBlock cfg pattern test tree nodeIdx node parent name st =
      .proceed st') : ReportReach st st' :=
  reach_of_opb h

/-- The entry point only changes state through `report`. -/
theorem Identifier_reach (cfg : Config) (pattern : String) (test : String → Bool)
    (tree : List Node) (st : RuleState) (nodeIdx : Nat) :
    ReportReach st (Identifier cfg pattern test tree st nodeIdx).1 := by
  simp only [Identifier]
  repeat' split
  all_goals
    first
      | exact ReportReach.refl _
      | exact ReportReach.step _ _ (ReportReach.refl _)
      | exact reach_of_opb_thrown (by assumption)
      | exact reach_of_opb_returned (by assumption)
      | exact reach_of_opb_proceed (by assumption)
      | exact ReportReach.step _ _ (reach_of_opb_proceed (by assumption))

/-- A whole traversal from a state satisfying the invariant preserves it. -/
theorem runAll_stateInv (cfg : Config) (pattern : String) (test : String → Bool)
    (tree : List Node) :
    ∀ (idxs : List Nat) (st : RuleState), stateInv st →
      stateInv (runAll cfg pattern test tree idxs st).1 := by
  intro idxs
  induction idxs with
  | nil => intro st h; exact h
  | cons i rest ih =>
    intro st h
    cases hI : Identifier cfg pattern test tree st i with
    | mk st' e =>
      rw [runAll, hI]
      have h1 : stateInv st' := by
        have h2 := reportReach_stateInv (Identifier_reach cfg pattern test tree st i) h
        rw [hI] at h2
        exact h2
      cases e with
      | none => exact ih st' h1
      | some msg => exact h1

/-- C5: over one traversal started from the fresh state, the emitted
diagnostics carry pairwise-distinct source ranges; on the shorthand
destructuring tree, whose key and value nodes share one range, exactly one
diagnostic is emitted. -/
theorem c5_at_most_one_diagnostic_per_range :
    (∀ (cfg : Config) (pattern : String) (test : String → Bool) (tree : List Node)
       (idxs : List Nat),
      ((runAll cfg pattern test tree idxs initialState).1.diagnostics.map
        (fun d => d.node.range)).Nodup) ∧
    (runAll {} underscorePattern noUnderscore destructureShorthandTree [5, 6, 7]
        initialState).1.diagnostics.map (fun d => d.node.range) = [(8, 16)] := by
  constructor
  · intro cfg pattern test tree idxs
    have h := runAll_stateInv cfg pattern test tree idxs initialState
      ⟨rfl, List.nodup_nil⟩
    have h2 : (((runAll cfg pattern test tree idxs initialState).1.diagnostics.map
        (fun d => d.node.range)).map rangeToString).Nodup := by
      rw [List.map_map]
      rw [show ((rangeToString ∘ fun d => d.node.range) :
          Diagnostic → String) = fun d => rangeToString d.node.range from rfl]
      rw [h.1]
      exact h.2
    exact List.Nodup.of_map rangeToString h2
  · decide

/-! ## The missing-key invariant violation -/

/-- A `thrown` outcome of the object-pattern block forces an absent key
relation: the throw is guarded by exactly the missing-key test. -/
theorem opb_thrown_key {cfg : Config} {pattern : String} {test : String → Bool}
    {tree : List Node} {nodeIdx : Nat} {node parent : Node} {name : String}
    {st st' : RuleState}
    (h : objectPatternBlock cfg pattern test tree nodeIdx node parent name st =
      .thrown st') : parent.key = none := by
  by_contra hk
  have hkb : (parent.key == none) = false := by simpa using hk
  rw [objectPatternBlock] at h
  simp only [hkb, Bool.false_eq_true, if_false] at h
  split at h
  · exact PropFlow.noConfusion h
  · split at h
    · exact PropFlow.noConfusion h
    · exact PropFlow.noConfusion h

/-- C9 counterexample: on a shorthand entry with a defaulted value whose key
relation is absent, the entry point both raises the exception and emits a
diagnostic first — the claim's "no diagnostic is emitted for that node" is
false on the code. -/
theorem c9_missing_key_counterexample :
    (Identifier {} underscorePattern noUnderscore missingKeyTree initialState 2).2 =
      some "OK" ∧
    (Identifier {} underscorePattern noUnderscore missingKeyTree
        initialState 2).1.diagnostics ≠ [] :=
  ⟨by decide, by decide⟩

/-- C9 amended: the entry point throws exactly when the parent is an
object-entry node (`Property` or `AssignmentPattern`) under an
`ObjectPattern` and its key relation is absent; in that case, when the entry
is not marked shorthand (so the preceding shorthand-with-default report
cannot fire), the state is unchanged — no diagnostic is emitted. -/
theorem c9_missing_key_amended :
    (∀ (cfg : Config) (pattern : String) (test : String → Bool) (tree : List Node)
       (st : RuleState) (idx pIdx : Nat) (node parent : Node),
      tree[idx]? = some node → node.parent = some pIdx → tree[pIdx]? = some parent →
      ((Identifier cfg pattern test tree st idx).2 = some "OK" ↔
        ((parent.type = "Property" ∨ parent.type = "AssignmentPattern") ∧
          (∃ ppNode, nodeAt tree parent.parent = some ppNode ∧
            ppNode.type = "ObjectPattern") ∧
          parent.key = none))) ∧
    (∀ (cfg : Config) (pattern : String) (test : String → Bool) (tree : List Node)
       (st : RuleState) (idx pIdx : Nat) (node parent ppNode : Node),
      tree[idx]? = some node → node.parent = some pIdx → tree[pIdx]? = some parent →
      (parent.type = "Property" ∨ parent.type = "AssignmentPattern") →
      nodeAt tree parent.parent = some ppNode → ppNode.type = "ObjectPattern" →
      parent.key = none → parent.shorthand ≠ some true →
      Identifier cfg pattern test tree st idx = (st, some "OK")) := by
  constructor
  · intro cfg pattern test tree st idx pIdx node parent hget hpar hpget
    constructor
    · intro hthrown
      simp only [Identifier, hget, hpar, hpget, Option.getD_some] at hthrown
      repeat' split at hthrown
      all_goals try (simp at hthrown)
      refine ⟨by assumption, ?_, opb_thrown_key (by assumption)⟩
      have hin : (match nodeAt tree parent.parent with
                  | some pp => pp.type == "ObjectPattern"
                  | none => false) = true := by assumption
      cases hnp : nodeAt tree parent.parent with
      | none => rw [hnp] at hin; simp at hin
      | some pp =>
        rw [hnp] at hin
        simp only [beq_iff_eq] at hin
        exact ⟨pp, rfl, hin⟩
    · rintro ⟨hpty, ⟨pp, hpp, hppty⟩, hkey⟩
      simp only [nodeAt] at hpp
      rcases hpty with h | h <;>
        simp [Identifier, objectPatternBlock, nodeAt, hget, hpar, hpget, h,
          hpp, hppty, hkey]
  · intro cfg pattern test tree st idx pIdx node parent ppNode
      hget hpar hpget hpty hpp hppty hkey hsh
    simp only [nodeAt] at hpp
    rcases hpty with h | h <;>
      simp [Identifier, objectPatternBlock, nodeAt, hget, hpar, hpget, h,
        hpp, hppty, hkey, hsh]

/-- Witness for the amended C9 on the non-shorthand missing-key tree. -/
theorem c9_missing_key_amended_witness :
    Identifier {} underscorePattern noUnderscore missingKeyPlainTree
      initialState 2 = (initialState, some "OK") :=
  c9_missing_key_amended.2 _ _ _ _ _ _ 1 _ _ _
    rfl rfl rfl (Or.inl rfl) rfl rfl rfl (by decide)

end IdMatch
